import Mathlib

/-
Verification of the step-graph execution engine specified for the
bqml-scann recommendation pipeline, together with a shallow embedding of
the pipeline construction in tfx_pipeline/pipeline.py.

The engine (Dependency Resolver, Graph Validator, Scheduler, Cache Index,
Gate Evaluator, Execution Backend Selector) is modelled from the
specification; the concrete pipeline graph (the twelve components, their
wiring, the two declared control edges, the executor choice for the ScaNN
indexer, and the default for enable_cache) is translated from pipeline.py.
-/

namespace PipelineEngine

/-- Kinds of artifacts known to the Artifact Type Registry. -/
inductive ArtifactKind
  | Dataset
  | Model
  | Schema
  | Statistics
  | Anomalies
  | Examples
  | ValidationResult
  | PushedModel
  deriving DecidableEq, Repr

/-- Executor policy kind: local execution or managed remote execution. -/
inductive PolicyKind
  | LOCAL
  | MANAGED_REMOTE
  deriving DecidableEq, Repr

/-- Scalar parameter values carried by a step. -/
inductive Scalar
  | str (v : String)
  | nat (v : Nat)
  | boolean (v : Bool)
  deriving DecidableEq, Repr

/-- Executor policy of a step: a kind plus backend-specific parameters
(the remote-training parameter map). -/
structure ExecutorPolicy where
  kind : PolicyKind
  remoteParams : List (String × String)
  deriving DecidableEq, Repr

/-- Modelled from the spec: the validation-spec interface consumed by a
validation-type step (maximum wait time in seconds and a retry count). -/
structure ValidationSpec where
  maxWaitSeconds : Nat
  retryCount : Nat
  deriving DecidableEq, Repr

/-- One named, typed input binding of a step: the binding name, the
identity of the upstream step, the name of its output, and the artifact
kind the input requires. -/
structure InputBinding where
  name : String
  upstreamIdentity : String
  upstreamOutputName : String
  requiredKind : ArtifactKind
  deriving DecidableEq, Repr

/-- A Step Specification: identity, input bindings, output declarations,
scalar parameters, explicit extra predecessor identities, executor policy,
an optional gate binding naming an input, and an optional validation spec
for validation-type steps. -/
structure StepSpec where
  identity : String
  inputs : List InputBinding
  outputs : List (String × ArtifactKind)
  params : List (String × Scalar)
  explicitPredecessors : List String
  executorPolicy : ExecutorPolicy
  gateBinding : Option String
  validationSpec : Option ValidationSpec
  deriving DecidableEq, Repr

/-- Construction-time and gate-configuration errors of the engine. -/
inductive ConstructionError
  | DuplicateStepError (id : String)
  | UnresolvedReferenceError (id : String) (inputName : String)
  | TypeMismatchError (id : String) (inputName : String)
  | CycleError (ids : List String)
  | BackendConfigError (id : String)
  | GateTypeError (id : String)
  deriving DecidableEq, Repr

/-- Association-list lookup keyed by strings, first match wins. -/
def alookup {α : Type} (k : String) : List (String × α) → Option α
  | [] => none
  | (k2, v) :: rest => if k2 = k then some v else alookup k rest

/-- Find the step with the given identity. -/
def findStep (specs : List StepSpec) (id : String) : Option StepSpec :=
  specs.find? (fun t => t.identity == id)

/-- The artifact kind produced by the named output of the named step,
when both exist. -/
def producedKind (specs : List StepSpec) (id out : String) : Option ArtifactKind :=
  match findStep specs id with
  | none => none
  | some t => alookup out t.outputs

/-- Identities of all predecessors of a step: the producers referenced by
its input bindings (data edges) followed by its explicitly declared
predecessors (control edges). -/
def predIds (s : StepSpec) : List String :=
  s.inputs.map (fun b => b.upstreamIdentity) ++ s.explicitPredecessors

/-- Edges contributed by one step: one edge per predecessor identity,
directed predecessor to this step. -/
def stepEdges (s : StepSpec) : List (String × String) :=
  (predIds s).map (fun p => (p, s.identity))

/-- Modelled from the spec: the Dependency Resolver edge set — data edges
from input references plus control edges from explicit predecessors, with
duplicate edges between the same ordered pair collapsed to one. -/
def allEdges (specs : List StepSpec) : List (String × String) :=
  (specs.flatMap stepEdges).dedup

/-- Modelled from the spec: the unresolved-reference check of the
Dependency Resolver, reporting the first input binding of a step that
names a step identity or output name not present in the step set. -/
def checkInputs (specs : List StepSpec) (s : StepSpec) : Option ConstructionError :=
  match s.inputs.find? (fun b =>
      decide (producedKind specs b.upstreamIdentity b.upstreamOutputName = none)) with
  | some b => some (ConstructionError.UnresolvedReferenceError s.identity b.name)
  | none => none

/-- Modelled from the spec: the artifact-kind compatibility check of the
Graph Validator on the data edges of one step. -/
def checkTypes (specs : List StepSpec) (s : StepSpec) : Option ConstructionError :=
  match s.inputs.find? (fun b =>
      decide (producedKind specs b.upstreamIdentity b.upstreamOutputName ≠
        some b.requiredKind)) with
  | some b => some (ConstructionError.TypeMismatchError s.identity b.name)
  | none => none

/-- Modelled from the spec: the gate-binding check — a gate binding must
name an input of the step whose upstream output is of validation-result
kind. -/
def checkGate (specs : List StepSpec) (s : StepSpec) : Option ConstructionError :=
  match s.gateBinding with
  | none => none
  | some n =>
    match s.inputs.find? (fun b => b.name == n) with
    | none => some (ConstructionError.GateTypeError s.identity)
    | some b =>
      if producedKind specs b.upstreamIdentity b.upstreamOutputName =
          some ArtifactKind.ValidationResult then none
      else some (ConstructionError.GateTypeError s.identity)

/-- Modelled from the spec: the backend-configuration check — requesting
the managed remote backend with no remote parameters supplied is invalid. -/
def checkBackend (s : StepSpec) : Option ConstructionError :=
  if s.executorPolicy.kind = PolicyKind.MANAGED_REMOTE ∧
      s.executorPolicy.remoteParams = [] then
    some (ConstructionError.BackendConfigError s.identity)
  else none

/-- First identity occurring twice in a list, if any. -/
def firstDup : List String → Option String
  | [] => none
  | x :: xs => if x ∈ xs then some x else firstDup xs

/-- A step is ready when no edge reaches it from a still-remaining step. -/
def readyStep (edges : List (String × String)) (rids : List String)
    (s : StepSpec) : Bool :=
  edges.all (fun e => decide (¬ (e.2 = s.identity ∧ e.1 ∈ rids)))

/-- Modelled from the spec: rounds of the Kahn-style order computation of
the Scheduler; each round moves every ready remaining step into the
accumulated order, and a round with remaining steps but none ready
reports a cycle among the remaining identities. -/
def kahn (edges : List (String × String)) :
    Nat → List StepSpec → List StepSpec → Except ConstructionError (List StepSpec)
  | 0, remaining, acc =>
    match remaining with
    | [] => Except.ok acc
    | _ => Except.error (ConstructionError.CycleError (remaining.map (fun s => s.identity)))
  | fuel + 1, remaining, acc =>
    match remaining with
    | [] => Except.ok acc
    | _ =>
      if (remaining.filter (readyStep edges (remaining.map (fun s => s.identity)))).isEmpty then
        Except.error (ConstructionError.CycleError (remaining.map (fun s => s.identity)))
      else
        kahn edges fuel
          (remaining.filter
            (fun s => !(readyStep edges (remaining.map (fun s => s.identity)) s)))
          (acc ++ remaining.filter (readyStep edges (remaining.map (fun s => s.identity))))

/-- A validated graph: the steps, the derived immutable edge set, and a
topological run order. -/
structure ValidatedGraph where
  steps : List StepSpec
  edges : List (String × String)
  order : List StepSpec
  deriving DecidableEq, Repr

/-- Modelled from the spec: graph validation — identity uniqueness,
reference resolution, artifact-kind compatibility, gate-binding
well-typedness, backend configuration, and acyclicity, all checked before
any step executes. -/
def validateGraph (specs : List StepSpec) : Except ConstructionError ValidatedGraph :=
  match firstDup (specs.map (fun s => s.identity)) with
  | some id => Except.error (ConstructionError.DuplicateStepError id)
  | none =>
  match specs.findSome? (checkInputs specs) with
  | some e => Except.error e
  | none =>
  match specs.findSome? (checkTypes specs) with
  | some e => Except.error e
  | none =>
  match specs.findSome? (checkGate specs) with
  | some e => Except.error e
  | none =>
  match specs.findSome? checkBackend with
  | some e => Except.error e
  | none =>
  match kahn (allEdges specs) specs.length specs [] with
  | Except.error e => Except.error e
  | Except.ok order =>
    Except.ok { steps := specs, edges := allEdges specs, order := order }

/-- Per-step status of a Run Record. -/
inductive Status
  | WAITING
  | READY
  | RUNNING
  | SUCCEEDED
  | FAILED
  | SKIPPED
  | CACHED
  deriving DecidableEq, Repr

/-- How a successful first-run status reads on an identical second run
with caching: SUCCEEDED becomes CACHED, every other status is unchanged. -/
def cacheView : Status → Status
  | Status.SUCCEEDED => Status.CACHED
  | v => v

/-- An artifact: kind, content (standing for the produced data, whose
fingerprint is content-derived), scalar boolean properties (including the
passed property of validation results), and the producing step. -/
structure Artifact where
  kind : ArtifactKind
  content : Nat
  props : List (String × Bool)
  producer : String
  deriving DecidableEq, Repr

/-- Content fingerprint of an artifact. -/
def fingerprint (a : Artifact) : Nat := a.content

/-- Cache key of a step execution: step identity, input artifact content
fingerprints in order, parameter fingerprint, and executor identity. -/
structure CacheKey where
  stepIdentity : String
  inputFingerprints : List Nat
  paramFingerprint : List (String × Scalar)
  executorIdentity : PolicyKind
  deriving DecidableEq, Repr

/-- Modelled from the spec: the Execution Backend Selector — a pure
function from executor policy to the concrete executor handle, identified
here by its policy kind. -/
def selectBackend (p : ExecutorPolicy) : PolicyKind := p.kind

/-- Registered output artifacts, keyed by producing step identity and
output name. -/
abbrev ArtifactStore := List ((String × String) × Artifact)

/-- Cache entries mapping a cache key to recorded output artifacts. -/
abbrev CacheStore := List (CacheKey × ArtifactStore)

/-- Association lookup in an artifact store. -/
def artLookup (k : String × String) : ArtifactStore → Option Artifact
  | [] => none
  | (k2, v) :: rest => if k2 = k then some v else artLookup k rest

/-- Association lookup in a cache store. -/
def cacheLookup (k : CacheKey) : CacheStore → Option ArtifactStore
  | [] => none
  | (k2, v) :: rest => if k2 = k then some v else cacheLookup k rest

/-- Mutable bookkeeping of one run: per-step final statuses in processing
order, the artifact store, the cache store, the identities dispatched to
the executor backend, and the cache keys recorded for observability. -/
structure RunState where
  statuses : List (String × Status)
  artifacts : ArtifactStore
  cache : CacheStore
  invoked : List String
  observedKeys : List CacheKey
  deriving DecidableEq, Repr

/-- Final status recorded for a step identity, if any. -/
def statusOf (st : RunState) (id : String) : Option Status :=
  alookup id st.statuses

/-- Record a status for a step. -/
def setStatus (st : RunState) (s : StepSpec) (v : Status) : RunState :=
  { st with statuses := st.statuses ++ [(s.identity, v)] }

/-- Resolve the artifact bound by one input binding. -/
def resolveInput (arts : ArtifactStore) (b : InputBinding) : Option Artifact :=
  artLookup (b.upstreamIdentity, b.upstreamOutputName) arts

/-- Resolve all input bindings of a step, in order. -/
def resolveInputs (arts : ArtifactStore) : List InputBinding → Option (List Artifact)
  | [] => some []
  | b :: bs =>
    match resolveInput arts b, resolveInputs arts bs with
    | some a, some rest => some (a :: rest)
    | _, _ => none

/-- Modelled from the spec: the Gate Evaluator — reads the passed boolean
property of a validation-result artifact, treating absence as false to
fail safe. -/
def gateEval (a : Artifact) : Bool :=
  (alookup "passed" a.props).getD false

/-- The artifact bound to the named input, aligning resolved artifacts
with the input bindings. -/
def boundArtifact (n : String) : List InputBinding → List Artifact → Option Artifact
  | b :: bs, a :: rest => if b.name = n then some a else boundArtifact n bs rest
  | _, _ => none

/-- Gate decision for a step given its resolved inputs: true when the
step carries no gate binding, else the Gate Evaluator verdict on the
bound artifact (fail safe when the binding resolves to nothing). -/
def gateValue (s : StepSpec) (arts : List Artifact) : Bool :=
  match s.gateBinding with
  | none => true
  | some n => ((boundArtifact n s.inputs arts).map gateEval).getD false

/-- Whether a step must be skipped because a predecessor failed, or
because a producer of one of its inputs was itself skipped. -/
def skipCond (st : RunState) (s : StepSpec) : Bool :=
  (predIds s).any (fun p => decide (statusOf st p = some Status.FAILED)) ||
  (s.inputs.map (fun b => b.upstreamIdentity)).any
    (fun p => decide (statusOf st p = some Status.SKIPPED))

/-- The executor backend abstraction: step logic mapping a step and its
resolved inputs to raw outputs (content and boolean properties per
declared output), or to none on a step execution failure. -/
abbrev ExecF := StepSpec → List Artifact → Option (List (Nat × List (String × Bool)))

/-- Wrap raw executor outputs as registered artifacts of the producer. -/
def mkOutputs (producer : String) :
    List (String × ArtifactKind) → List (Nat × List (String × Bool)) → ArtifactStore
  | (n, k) :: outs, (c, pr) :: raws =>
    ((producer, n), { kind := k, content := c, props := pr, producer := producer }) ::
      mkOutputs producer outs raws
  | _, _ => []

/-- Cache key of a step on its resolved inputs. -/
def cacheKey (s : StepSpec) (arts : List Artifact) : CacheKey :=
  { stepIdentity := s.identity
  , inputFingerprints := arts.map fingerprint
  , paramFingerprint := s.params
  , executorIdentity := selectBackend s.executorPolicy }

/-- Modelled from the spec: dispatch of one ready, gate-approved step —
consult the Cache Index when caching is enabled (a hit yields CACHED and
reuses the recorded outputs without invoking the backend), otherwise
invoke the selected backend and record SUCCEEDED with registered outputs
(inserted into the cache when enabled) or FAILED; the cache key is
recorded for observability in either configuration. -/
def dispatch (exec : ExecF) (cacheEnabled : Bool) (st : RunState) (s : StepSpec)
    (arts : List Artifact) : RunState :=
  match (if cacheEnabled then cacheLookup (cacheKey s arts) st.cache else none) with
  | some outs =>
    { statuses := st.statuses ++ [(s.identity, Status.CACHED)]
    , artifacts := st.artifacts ++ outs
    , cache := st.cache
    , invoked := st.invoked
    , observedKeys := st.observedKeys ++ [cacheKey s arts] }
  | none =>
    match exec s arts with
    | some raw =>
      { statuses := st.statuses ++ [(s.identity, Status.SUCCEEDED)]
      , artifacts := st.artifacts ++ mkOutputs s.identity s.outputs raw
      , cache := if cacheEnabled then
                   (cacheKey s arts, mkOutputs s.identity s.outputs raw) :: st.cache
                 else st.cache
      , invoked := st.invoked ++ [s.identity]
      , observedKeys := st.observedKeys ++ [cacheKey s arts] }
    | none =>
      { statuses := st.statuses ++ [(s.identity, Status.FAILED)]
      , artifacts := st.artifacts
      , cache := st.cache
      , invoked := st.invoked ++ [s.identity]
      , observedKeys := st.observedKeys ++ [cacheKey s arts] }

/-- Modelled from the spec: one Scheduler step — skip propagation from
failed or skipped predecessors, input resolution, the gate decision, and
dispatch. -/
def processStep (exec : ExecF) (cacheEnabled : Bool) (st : RunState)
    (s : StepSpec) : RunState :=
  if skipCond st s then setStatus st s Status.SKIPPED
  else
    match resolveInputs st.artifacts s.inputs with
    | none => setStatus st s Status.FAILED
    | some arts =>
      if gateValue s arts then dispatch exec cacheEnabled st s arts
      else setStatus st s Status.SKIPPED

/-- Modelled from the spec: the Scheduler loop over the topological run
order. -/
def runAux (exec : ExecF) (cacheEnabled : Bool) : List StepSpec → RunState → RunState
  | [], st => st
  | s :: rest, st => runAux exec cacheEnabled rest (processStep exec cacheEnabled st s)

/-- Initial run state over a given pre-existing cache store. -/
def initState (cache0 : CacheStore) : RunState :=
  { statuses := [], artifacts := [], cache := cache0, invoked := [], observedKeys := [] }

/-- Modelled from the spec: execute a validated graph. -/
def runGraph (exec : ExecF) (cacheEnabled : Bool) (v : ValidatedGraph)
    (cache0 : CacheStore) : RunState :=
  runAux exec cacheEnabled v.order (initState cache0)

/-- Overall run status: FAILED when any step failed, SUCCEEDED otherwise;
skipped steps alone never fail a run. -/
def overallStatus (st : RunState) : Status :=
  if st.statuses.any (fun p => decide (p.2 = Status.FAILED)) then Status.FAILED
  else Status.SUCCEEDED

/-- Modelled from the spec: run creation — validation precedes any
execution, and a construction error aborts run creation entirely. -/
def createRun (specs : List StepSpec) (exec : ExecF) (cacheEnabled : Bool)
    (cache0 : CacheStore) : Except ConstructionError RunState :=
  match validateGraph specs with
  | Except.error e => Except.error e
  | Except.ok v => Except.ok (runGraph exec cacheEnabled v cache0)

/-! Embedding of tfx_pipeline/pipeline.py: the twelve pipeline components
and create_pipeline. Step identities use the instance names given in the
source; components imported from bq_components are modelled from their use
in pipeline.py (their declared inputs and outputs as wired there). -/

def EMBEDDING_LOOKUP_MODEL_NAME : String := "embeddings_lookup"

def SCANN_INDEX_MODEL_NAME : String := "embeddings_scann"

def LOOKUP_EXPORTER_MODULE : String := "lookup_exporter.py"

def SCANN_INDEXER_MODULE : String := "scann_indexer.py"

def SCHEMA_DIR : String := "schema"

/-- Local executor policy (trainer GenericExecutor in the source). -/
def local_executor_spec : ExecutorPolicy :=
  { kind := PolicyKind.LOCAL, remoteParams := [] }

/-- Managed remote executor policy (AI Platform GenericExecutor in the
source), carrying the remote-training parameter map. -/
def caip_executor_spec (ai_platform_training_args : List (String × String)) :
    ExecutorPolicy :=
  { kind := PolicyKind.MANAGED_REMOTE, remoteParams := ai_platform_training_args }

/-- The compute_pmi custom component: no inputs, outputs item_cooc. -/
def compute_pmi (project_id dataset : String)
    (min_item_frequency max_group_size : Nat) : StepSpec :=
  { identity := "ComputePMI"
  , inputs := []
  , outputs := [("item_cooc", ArtifactKind.Dataset)]
  , params := [("project_id", Scalar.str project_id), ("dataset", Scalar.str dataset),
               ("min_item_frequency", Scalar.nat min_item_frequency),
               ("max_group_size", Scalar.nat max_group_size)]
  , explicitPredecessors := []
  , executorPolicy := local_executor_spec
  , gateBinding := none
  , validationSpec := none }

/-- The train_item_matching_model custom component: consumes item_cooc,
outputs the BQML model. -/
def train_item_matching_model (project_id dataset : String) (dimensions : Nat) :
    StepSpec :=
  { identity := "TrainItemMatchingModel"
  , inputs := [{ name := "item_cooc", upstreamIdentity := "ComputePMI"
               , upstreamOutputName := "item_cooc"
               , requiredKind := ArtifactKind.Dataset }]
  , outputs := [("model", ArtifactKind.Model)]
  , params := [("project_id", Scalar.str project_id), ("dataset", Scalar.str dataset),
               ("dimensions", Scalar.nat dimensions)]
  , explicitPredecessors := []
  , executorPolicy := local_executor_spec
  , gateBinding := none
  , validationSpec := none }

/-- The extract_embeddings custom component: consumes the BQML model,
outputs the embeddings table. -/
def extract_embeddings (project_id dataset : String) : StepSpec :=
  { identity := "ExtractEmbeddings"
  , inputs := [{ name := "model", upstreamIdentity := "TrainItemMatchingModel"
               , upstreamOutputName := "model"
               , requiredKind := ArtifactKind.Model }]
  , outputs := [("embeddings", ArtifactKind.Dataset)]
  , params := [("project_id", Scalar.str project_id), ("dataset", Scalar.str dataset)]
  , explicitPredecessors := []
  , executorPolicy := local_executor_spec
  , gateBinding := none
  , validationSpec := none }

/-- The BigQueryExampleGen instance BQExportEmbeddings: no data inputs,
outputs examples; pipeline.py adds embeddings_extractor as an explicit
upstream node. -/
def embeddings_exporter (bq_dataset_name : String) : StepSpec :=
  { identity := "BQExportEmbeddings"
  , inputs := []
  , outputs := [("examples", ArtifactKind.Examples)]
  , params := [("query", Scalar.str
      ("SELECT item_Id, embedding FROM " ++ bq_dataset_name ++ ".item_embeddings"))]
  , explicitPredecessors := ["ExtractEmbeddings"]
  , executorPolicy := local_executor_spec
  , gateBinding := none
  , validationSpec := none }

/-- The ImporterNode instance RawSchemaImporter: imports the schema. -/
def schema_importer : StepSpec :=
  { identity := "RawSchemaImporter"
  , inputs := []
  , outputs := [("result", ArtifactKind.Schema)]
  , params := [("source_uri", Scalar.str SCHEMA_DIR)]
  , explicitPredecessors := []
  , executorPolicy := local_executor_spec
  , gateBinding := none
  , validationSpec := none }

/-- The StatisticsGen instance EmbeddingsStatsGenerator. -/
def stats_generator : StepSpec :=
  { identity := "EmbeddingsStatsGenerator"
  , inputs := [{ name := "examples", upstreamIdentity := "BQExportEmbeddings"
               , upstreamOutputName := "examples"
               , requiredKind := ArtifactKind.Examples }]
  , outputs := [("statistics", ArtifactKind.Statistics)]
  , params := []
  , explicitPredecessors := []
  , executorPolicy := local_executor_spec
  , gateBinding := none
  , validationSpec := none }

/-- The ExampleValidator instance EmbeddingsStatsValidator. -/
def stats_validator : StepSpec :=
  { identity := "EmbeddingsStatsValidator"
  , inputs := [{ name := "statistics", upstreamIdentity := "EmbeddingsStatsGenerator"
               , upstreamOutputName := "statistics"
               , requiredKind := ArtifactKind.Statistics },
               { name := "schema", upstreamIdentity := "RawSchemaImporter"
               , upstreamOutputName := "result"
               , requiredKind := ArtifactKind.Schema }]
  , outputs := [("anomalies", ArtifactKind.Anomalies)]
  , params := []
  , explicitPredecessors := []
  , executorPolicy := local_executor_spec
  , gateBinding := none
  , validationSpec := none }

/-- The Trainer instance ExportEmbeddingLookup: exports the embedding
lookup SavedModel with the local executor; pipeline.py adds
stats_validator as an explicit upstream node. -/
def lookup_savedmodel_exporter : StepSpec :=
  { identity := "ExportEmbeddingLookup"
  , inputs := [{ name := "schema", upstreamIdentity := "RawSchemaImporter"
               , upstreamOutputName := "result"
               , requiredKind := ArtifactKind.Schema },
               { name := "examples", upstreamIdentity := "BQExportEmbeddings"
               , upstreamOutputName := "examples"
               , requiredKind := ArtifactKind.Examples }]
  , outputs := [("model", ArtifactKind.Model)]
  , params := [("module_file", Scalar.str LOOKUP_EXPORTER_MODULE),
               ("train_num_steps", Scalar.nat 0), ("eval_num_steps", Scalar.nat 0)]
  , explicitPredecessors := ["EmbeddingsStatsValidator"]
  , executorPolicy := local_executor_spec
  , gateBinding := none
  , validationSpec := none }

/-- The Pusher instance EmbeddingLookupPusher: pushes the embedding
lookup model unconditionally (no gate binding). -/
def embedding_lookup_pusher (model_regisrty_uri : String) : StepSpec :=
  { identity := "EmbeddingLookupPusher"
  , inputs := [{ name := "model", upstreamIdentity := "ExportEmbeddingLookup"
               , upstreamOutputName := "model"
               , requiredKind := ArtifactKind.Model }]
  , outputs := [("pushed_model", ArtifactKind.PushedModel)]
  , params := [("push_destination", Scalar.str
      (model_regisrty_uri ++ "/" ++ EMBEDDING_LOOKUP_MODEL_NAME))]
  , explicitPredecessors := []
  , executorPolicy := local_executor_spec
  , gateBinding := none
  , validationSpec := none }

/-- The InfraValidator instance EmbeddingLookupInfraValidator: validates
the embedding lookup model with a 60 second maximum loading time and 3
tries, producing a blessing of validation-result kind. -/
def infra_validator : StepSpec :=
  { identity := "EmbeddingLookupInfraValidator"
  , inputs := [{ name := "model", upstreamIdentity := "ExportEmbeddingLookup"
               , upstreamOutputName := "model"
               , requiredKind := ArtifactKind.Model }]
  , outputs := [("blessing", ArtifactKind.ValidationResult)]
  , params := [("serving_tags", Scalar.str "latest")]
  , explicitPredecessors := []
  , executorPolicy := local_executor_spec
  , gateBinding := none
  , validationSpec := some { maxWaitSeconds := 60, retryCount := 3 } }

/-- The Trainer instance BuildScaNNIndex: built with the managed remote
executor exactly when ai_platform_training_args is non-empty, mirroring
the conditional executor choice in pipeline.py. -/
def scann_indexer (num_leaves : Nat)
    (ai_platform_training_args : List (String × String)) : StepSpec :=
  { identity := "BuildScaNNIndex"
  , inputs := [{ name := "schema", upstreamIdentity := "RawSchemaImporter"
               , upstreamOutputName := "result"
               , requiredKind := ArtifactKind.Schema },
               { name := "examples", upstreamIdentity := "BQExportEmbeddings"
               , upstreamOutputName := "examples"
               , requiredKind := ArtifactKind.Examples }]
  , outputs := [("model", ArtifactKind.Model)]
  , params := [("module_file", Scalar.str SCANN_INDEXER_MODULE),
               ("train_num_steps", Scalar.nat num_leaves), ("eval_num_steps", Scalar.nat 0)]
  , explicitPredecessors := []
  , executorPolicy := if ai_platform_training_args.isEmpty then local_executor_spec
                      else caip_executor_spec ai_platform_training_args
  , gateBinding := none
  , validationSpec := none }

/-- The Pusher instance ScaNNIndexPusher: pushes the ScaNN index, gated on
the infra-validator blessing through its infra_blessing input. -/
def embedding_scann_pusher (model_regisrty_uri : String) : StepSpec :=
  { identity := "ScaNNIndexPusher"
  , inputs := [{ name := "model", upstreamIdentity := "BuildScaNNIndex"
               , upstreamOutputName := "model"
               , requiredKind := ArtifactKind.Model },
               { name := "infra_blessing", upstreamIdentity := "EmbeddingLookupInfraValidator"
               , upstreamOutputName := "blessing"
               , requiredKind := ArtifactKind.ValidationResult }]
  , outputs := [("pushed_model", ArtifactKind.PushedModel)]
  , params := [("push_destination", Scalar.str
      (model_regisrty_uri ++ "/" ++ SCANN_INDEX_MODEL_NAME))]
  , explicitPredecessors := []
  , executorPolicy := local_executor_spec
  , gateBinding := some "infra_blessing"
  , validationSpec := none }

/-- A constructed pipeline, mirroring tfx.orchestration.pipeline.Pipeline
as instantiated by create_pipeline. -/
structure Pipeline where
  pipelineName : String
  pipelineRoot : String
  components : List StepSpec
  beamPipelineArgs : List String
  metadataConnectionConfig : Option String
  enableCache : Bool
  deriving Repr

/-- The create_pipeline function of pipeline.py: assembles the twelve
components in declaration order and returns the Pipeline; enable_cache
defaults to False. -/
def create_pipeline (pipeline_name pipeline_root project_id bq_dataset_name : String)
    (min_item_frequency max_group_size dimensions num_leaves : Nat)
    (ai_platform_training_args : List (String × String))
    (beam_pipeline_args : List String)
    (model_regisrty_uri : String)
    (metadata_connection_config : Option String := none)
    (enable_cache : Bool := false) : Pipeline :=
  { pipelineName := pipeline_name
  , pipelineRoot := pipeline_root
  , components :=
      [ compute_pmi project_id bq_dataset_name min_item_frequency max_group_size
      , train_item_matching_model project_id bq_dataset_name dimensions
      , extract_embeddings project_id bq_dataset_name
      , embeddings_exporter bq_dataset_name
      , schema_importer
      , stats_generator
      , stats_validator
      , lookup_savedmodel_exporter
      , infra_validator
      , embedding_lookup_pusher model_regisrty_uri
      , scann_indexer num_leaves ai_platform_training_args
      , embedding_scann_pusher model_regisrty_uri ]
  , beamPipelineArgs := beam_pipeline_args
  , metadataConnectionConfig := metadata_connection_config
  , enableCache := enable_cache }

/-! The three-step extract, validate, publish chain of the specification
scenario, used to exercise the engine on concrete inputs. -/

/-- The extract step of the scenario: no inputs, outputs artifact X. -/
def scenario_extract : StepSpec :=
  { identity := "extract"
  , inputs := []
  , outputs := [("X", ArtifactKind.Dataset)]
  , params := []
  , explicitPredecessors := []
  , executorPolicy := local_executor_spec
  , gateBinding := none
  , validationSpec := none }

/-- The validate step of the scenario: consumes X, outputs the
validation result V. -/
def scenario_validate : StepSpec :=
  { identity := "validate"
  , inputs := [{ name := "X", upstreamIdentity := "extract"
               , upstreamOutputName := "X", requiredKind := ArtifactKind.Dataset }]
  , outputs := [("V", ArtifactKind.ValidationResult)]
  , params := []
  , explicitPredecessors := []
  , executorPolicy := local_executor_spec
  , gateBinding := none
  , validationSpec := some { maxWaitSeconds := 60, retryCount := 3 } }

/-- The publish step of the scenario: consumes X, gated on V. -/
def scenario_publish : StepSpec :=
  { identity := "publish"
  , inputs := [{ name := "X", upstreamIdentity := "extract"
               , upstreamOutputName := "X", requiredKind := ArtifactKind.Dataset },
               { name := "V", upstreamIdentity := "validate"
               , upstreamOutputName := "V", requiredKind := ArtifactKind.ValidationResult }]
  , outputs := [("pub", ArtifactKind.PushedModel)]
  , params := []
  , explicitPredecessors := []
  , executorPolicy := local_executor_spec
  , gateBinding := some "V"
  , validationSpec := none }

/-- The scenario step set in declaration order. -/
def scenario_specs : List StepSpec :=
  [scenario_extract, scenario_validate, scenario_publish]

/-- Deterministic executor for the scenario in which the validation
fails: validate produces V with passed set to false. -/
def scenario_exec : ExecF := fun s _ =>
  if s.identity = "extract" then some [(1, [])]
  else if s.identity = "validate" then some [(2, [("passed", false)])]
  else if s.identity = "publish" then some [(3, [])]
  else none

/-! Concrete material used by witnesses. -/

/-- A single-step graph used to exercise cache idempotence concretely. -/
def cache_demo_step : StepSpec :=
  { identity := "a"
  , inputs := []
  , outputs := [("out", ArtifactKind.Dataset)]
  , params := []
  , explicitPredecessors := []
  , executorPolicy := local_executor_spec
  , gateBinding := none
  , validationSpec := none }

/-- The single-step graph as a step set. -/
def cache_demo_specs : List StepSpec := [cache_demo_step]

/-- Deterministic executor for the single-step graph. -/
def cache_demo_exec : ExecF := fun s _ =>
  if s.identity = "a" then some [(7, [])] else none

/-- The validated form of the single-step graph. -/
def cache_demo_v : ValidatedGraph :=
  { steps := cache_demo_specs, edges := allEdges cache_demo_specs
  , order := cache_demo_specs }

/-- First run of the single-step graph with caching enabled over an empty
cache. -/
def cache_demo_run1 : RunState := runGraph cache_demo_exec true cache_demo_v []

/-- Second run of the single-step graph over the cache left by the first. -/
def cache_demo_run2 : RunState :=
  runGraph cache_demo_exec true cache_demo_v cache_demo_run1.cache

/-- A blessing artifact with the passed property set to false. -/
def gate_demo_blessing : Artifact :=
  { kind := ArtifactKind.ValidationResult, content := 5
  , props := [("passed", false)], producer := "EmbeddingLookupInfraValidator" }

/-- A ScaNN index model artifact. -/
def gate_demo_model : Artifact :=
  { kind := ArtifactKind.Model, content := 9, props := []
  , producer := "BuildScaNNIndex" }

/-- A run state in which both producers of the ScaNN pusher inputs have
succeeded and the blessing carries passed equal to false. -/
def gate_demo_state : RunState :=
  { statuses := [("BuildScaNNIndex", Status.SUCCEEDED),
                 ("EmbeddingLookupInfraValidator", Status.SUCCEEDED)]
  , artifacts := [(("BuildScaNNIndex", "model"), gate_demo_model),
                  (("EmbeddingLookupInfraValidator", "blessing"), gate_demo_blessing)]
  , cache := []
  , invoked := []
  , observedKeys := [] }

/-- A step requesting the managed remote backend with no remote
parameters, an invalid configuration. -/
def bad_backend_step : StepSpec :=
  { identity := "bad"
  , inputs := []
  , outputs := [("out", ArtifactKind.Dataset)]
  , params := []
  , explicitPredecessors := []
  , executorPolicy := { kind := PolicyKind.MANAGED_REMOTE, remoteParams := [] }
  , gateBinding := none
  , validationSpec := none }

/-! Engine lemmas. -/

/-- Lookup distributes over append, first match winning. -/
theorem alookup_append {α : Type} (k : String) (l1 l2 : List (String × α)) :
    alookup k (l1 ++ l2) =
      match alookup k l1 with
      | some v => some v
      | none => alookup k l2 := by
  induction l1 with
  | nil => rfl
  | cons p rest ih =>
    rcases p with ⟨k2, v⟩
    by_cases h : k2 = k
    · simp [alookup, h]
    · simp [alookup, h, ih]

/-- A successful lookup survives appending further entries. -/
theorem alookup_append_of_some {α : Type} {k : String} {l1 : List (String × α)}
    {v : α} (l2 : List (String × α)) (h : alookup k l1 = some v) :
    alookup k (l1 ++ l2) = some v := by
  rw [alookup_append, h]

/-- A lookup misses exactly when the key is absent from the key column. -/
theorem alookup_eq_none_iff {α : Type} (k : String) (l : List (String × α)) :
    alookup k l = none ↔ k ∉ l.map Prod.fst := by
  induction l with
  | nil => simp [alookup]
  | cons p rest ih =>
    rcases p with ⟨k2, v⟩
    by_cases h : k2 = k
    · simp [alookup, h]
    · simp [alookup, h, ih, Ne.symm h]

/-- A key present in the key column has some looked-up value. -/
theorem alookup_isSome_of_mem {α : Type} {k : String} {l : List (String × α)}
    (h : k ∈ l.map Prod.fst) : ∃ v, alookup k l = some v := by
  rcases ho : alookup k l with _ | v
  · exact absurd h ((alookup_eq_none_iff k l).mp ho)
  · exact ⟨v, rfl⟩

/-- Lookup commutes with mapping the value column. -/
theorem alookup_map_value {α β : Type} (f : α → β) (k : String)
    (l : List (String × α)) :
    alookup k (l.map (fun p => (p.1, f p.2))) = (alookup k l).map f := by
  induction l with
  | nil => rfl
  | cons p rest ih =>
    rcases p with ⟨k2, v⟩
    by_cases h : k2 = k
    · simp [alookup, h]
    · simp [alookup, h, ih]

/-- Processing a step records exactly one terminal status for it, at the
end of the status list. -/
theorem processStep_statuses (exec : ExecF) (ce : Bool) (st : RunState) (s : StepSpec) :
    ∃ v, (processStep exec ce st s).statuses = st.statuses ++ [(s.identity, v)] ∧
      (v = Status.SUCCEEDED ∨ v = Status.FAILED ∨ v = Status.SKIPPED ∨ v = Status.CACHED) := by
  unfold processStep
  split
  · exact ⟨Status.SKIPPED, rfl, by simp⟩
  · split
    · exact ⟨Status.FAILED, rfl, by simp⟩
    · split
      · unfold dispatch
        split
        · exact ⟨Status.CACHED, rfl, by simp⟩
        · split
          · exact ⟨Status.SUCCEEDED, rfl, by simp⟩
          · exact ⟨Status.FAILED, rfl, by simp⟩
      · exact ⟨Status.SKIPPED, rfl, by simp⟩

/-- Processing a step leaves earlier entries of the other bookkeeping
untouched: the invocation log either stays or gains exactly this step,
and it grows only when the skip condition was false. -/
theorem processStep_invoked (exec : ExecF) (ce : Bool) (st : RunState) (s : StepSpec) :
    (processStep exec ce st s).invoked = st.invoked ∨
      ((processStep exec ce st s).invoked = st.invoked ++ [s.identity] ∧
        skipCond st s = false) := by
  unfold processStep
  rcases h : skipCond st s with _ | _
  · simp only [Bool.false_eq_true, if_false]
    split
    · left; rfl
    · split
      · unfold dispatch
        split
        · left; rfl
        · split
          · right; exact ⟨rfl, by simp⟩
          · right; exact ⟨rfl, by simp⟩
      · left; rfl
  · simp only [if_true]
    left; rfl

/-- Lookup in a cache extended with a differently keyed entry. -/
theorem cacheLookup_cons_ne {k k2 : CacheKey} {v : ArtifactStore} {c : CacheStore}
    (h : k2 ≠ k) : cacheLookup k ((k2, v) :: c) = cacheLookup k c := by
  simp [cacheLookup, h]

/-- Processing a step never disturbs cache entries recorded under another
step identity. -/
theorem processStep_cache_stable (exec : ExecF) (ce : Bool) (st : RunState)
    (s : StepSpec) (k : CacheKey) (h : k.stepIdentity ≠ s.identity) :
    cacheLookup k (processStep exec ce st s).cache = cacheLookup k st.cache := by
  unfold processStep
  split
  · rfl
  · split
    · rfl
    · split
      · unfold dispatch
        split
        · rfl
        · split
          · show cacheLookup k (if ce then _ else _) = _
            split
            · next arts _ _ _ _ =>
              refine cacheLookup_cons_ne ?_
              intro he
              exact h (by rw [← he]; rfl)
            · rfl
          · rfl
      · rfl

/-- With caching disabled, processing leaves the cache untouched and
never records a CACHED status. -/
theorem processStep_nocache (exec : ExecF) (st : RunState) (s : StepSpec) :
    (processStep exec false st s).cache = st.cache ∧
      ∃ v, (processStep exec false st s).statuses = st.statuses ++ [(s.identity, v)] ∧
        v ≠ Status.CACHED := by
  unfold processStep
  split
  · exact ⟨rfl, Status.SKIPPED, rfl, by simp⟩
  · split
    · exact ⟨rfl, Status.FAILED, rfl, by simp⟩
    · split
      · unfold dispatch
        split
        · next heq => exact absurd heq (by simp)
        · split
          · exact ⟨by simp, Status.SUCCEEDED, rfl, by simp⟩
          · exact ⟨rfl, Status.FAILED, rfl, by simp⟩
      · exact ⟨rfl, Status.SKIPPED, rfl, by simp⟩

/-- A cache-disabled run returns the cache store unchanged and records no
CACHED status beyond those already present. -/
theorem runAux_nocache (exec : ExecF) (todo : List StepSpec) : ∀ st : RunState,
    (runAux exec false todo st).cache = st.cache ∧
      (st.statuses.all (fun p => decide (p.2 ≠ Status.CACHED)) = true →
        (runAux exec false todo st).statuses.all
          (fun p => decide (p.2 ≠ Status.CACHED)) = true) := by
  induction todo with
  | nil => exact fun st => ⟨rfl, fun h => h⟩
  | cons s rest ih =>
    intro st
    obtain ⟨hc, v, hst, hv⟩ := processStep_nocache exec st s
    refine ⟨?_, ?_⟩
    · show (runAux exec false rest (processStep exec false st s)).cache = st.cache
      rw [(ih _).1, hc]
    · intro h
      show (runAux exec false rest (processStep exec false st s)).statuses.all _ = true
      refine (ih _).2 ?_
      rw [hst, List.all_append, h, Bool.true_and]
      simpa using hv

/-! Claim theorems. -/

/-- C10: create_pipeline called without the enable_cache argument returns
a pipeline with caching disabled (enable_cache defaults to false), and a
cache-disabled run bypasses cache lookup and insertion: the cache store
comes back unchanged and no step ever acquires CACHED status. -/
theorem enable_cache_default :
    ∀ (pn pr pid ds : String) (mif mgs dim nl : Nat)
      (ai : List (String × String)) (beam : List String) (uri : String)
      (mcc : Option String),
      (create_pipeline pn pr pid ds mif mgs dim nl ai beam uri mcc).enableCache = false
    ∧ ∀ (exec : ExecF) (v : ValidatedGraph) (cache0 : CacheStore),
        (runGraph exec false v cache0).cache = cache0
      ∧ (runGraph exec false v cache0).statuses.all
          (fun p => decide (p.2 ≠ Status.CACHED)) = true := by
  intro pn pr pid ds mif mgs dim nl ai beam uri mcc
  refine ⟨rfl, ?_⟩
  intro exec v cache0
  exact ⟨(runAux_nocache exec v.order (initState cache0)).1,
         (runAux_nocache exec v.order (initState cache0)).2 rfl⟩

/-- C9: of the two publish-type steps of the constructed graph only the
ScaNN-index pusher carries a gate binding (the infra-validation blessing);
the embedding lookup pusher has no gate binding, so its gate decision is
unconditionally true, while the blessing gating the ScaNN pusher is
produced by infra-validating the lookup model exported by
ExportEmbeddingLookup, not the ScaNN index the gate protects. -/
theorem pusher_gate_asymmetry :
    ∀ (pn pr pid ds : String) (mif mgs dim nl : Nat)
      (ai : List (String × String)) (beam : List String) (uri : String)
      (mcc : Option String) (ec : Bool),
      (((create_pipeline pn pr pid ds mif mgs dim nl ai beam uri mcc ec).components.filter
          (fun s => decide (s.outputs.map Prod.snd = [ArtifactKind.PushedModel]))).map
            (fun s => (s.identity, s.gateBinding))) =
        [("EmbeddingLookupPusher", none), ("ScaNNIndexPusher", some "infra_blessing")]
    ∧ (((create_pipeline pn pr pid ds mif mgs dim nl ai beam uri mcc ec).components.filter
          (fun s => s.gateBinding.isSome)).map (fun s => s.identity)) = ["ScaNNIndexPusher"]
    ∧ (∀ arts, gateValue (embedding_lookup_pusher uri) arts = true)
    ∧ (embedding_scann_pusher uri).inputs.map
        (fun b => (b.name, b.upstreamIdentity, b.upstreamOutputName)) =
        [("model", "BuildScaNNIndex", "model"),
         ("infra_blessing", "EmbeddingLookupInfraValidator", "blessing")]
    ∧ infra_validator.inputs.map (fun b => (b.upstreamIdentity, b.upstreamOutputName)) =
        [("ExportEmbeddingLookup", "model")]
    ∧ (embedding_lookup_pusher uri).inputs.map
        (fun b => (b.upstreamIdentity, b.upstreamOutputName)) =
        [("ExportEmbeddingLookup", "model")] := by
  intro pn pr pid ds mif mgs dim nl ai beam uri mcc ec
  exact ⟨rfl, rfl, fun arts => rfl, rfl, rfl, rfl⟩

/-- C8: the infra validator consumes the validation-spec interface with a
60 second maximum loading time and 3 tries, produces a blessing output of
validation-result kind, belongs to the constructed pipeline, and the
engine reads the passed property through the Gate Evaluator, which
returns true exactly when the property is present and true, absence
reading as false. -/
theorem validation_spec_interface :
    ∀ (pn pr pid ds : String) (mif mgs dim nl : Nat)
      (ai : List (String × String)) (beam : List String) (uri : String)
      (mcc : Option String) (ec : Bool),
      infra_validator.validationSpec = some { maxWaitSeconds := 60, retryCount := 3 }
    ∧ infra_validator.outputs = [("blessing", ArtifactKind.ValidationResult)]
    ∧ infra_validator ∈ (create_pipeline pn pr pid ds mif mgs dim nl ai beam uri mcc ec).components
    ∧ (∀ a : Artifact, gateEval a = true ↔ alookup "passed" a.props = some true) := by
  intro pn pr pid ds mif mgs dim nl ai beam uri mcc ec
  refine ⟨rfl, rfl, by simp [create_pipeline], ?_⟩
  intro a
  unfold gateEval
  rcases h : alookup "passed" a.props with _ | b
  · simp
  · rcases b with _ | _ <;> simp

/-- C5: backend selection is a pure function of step configuration: the
ScaNN indexer selects the managed remote executor exactly when the
remote-training parameter map is non-empty and the local executor
otherwise, every step of the constructed pipeline selects managed remote
exactly when its remote parameter map is non-empty, and equal
configurations always select equal executors. -/
theorem backend_selection_pure :
    ∀ (nl : Nat) (ai : List (String × String)),
      selectBackend (scann_indexer nl ai).executorPolicy =
        (if ai.isEmpty then PolicyKind.LOCAL else PolicyKind.MANAGED_REMOTE)
    ∧ (∀ (pn pr pid ds : String) (mif mgs dim : Nat) (beam : List String)
         (uri : String) (mcc : Option String) (ec : Bool) (s : StepSpec),
         s ∈ (create_pipeline pn pr pid ds mif mgs dim nl ai beam uri mcc ec).components →
         selectBackend s.executorPolicy =
           (if s.executorPolicy.remoteParams.isEmpty then PolicyKind.LOCAL
            else PolicyKind.MANAGED_REMOTE))
    ∧ (∀ p q : ExecutorPolicy, p = q → selectBackend p = selectBackend q) := by
  intro nl ai
  refine ⟨?_, ?_, fun p q h => by rw [h]⟩
  · rcases ai with _ | ⟨p2, t2⟩ <;> rfl
  · intro pn pr pid ds mif mgs dim beam uri mcc ec s hs
    simp only [create_pipeline, List.mem_cons, List.not_mem_nil, or_false] at hs
    rcases hs with rfl|rfl|rfl|rfl|rfl|rfl|rfl|rfl|rfl|rfl|rfl|rfl <;>
      first
        | rfl
        | (rcases ai with _ | ⟨p2, t2⟩ <;> rfl)

/-- Witness for C5 at concrete configurations: non-empty remote
parameters select the managed remote executor, and the locally configured
lookup exporter selects the local executor. -/
theorem backend_selection_pure_witness :
    selectBackend (scann_indexer 10 [("project", "gcp")]).executorPolicy =
      PolicyKind.MANAGED_REMOTE
    ∧ selectBackend lookup_savedmodel_exporter.executorPolicy = PolicyKind.LOCAL := by
  constructor
  · simpa using (backend_selection_pure 10 [("project", "gcp")]).1
  · have h := (backend_selection_pure 10 [("project", "gcp")]).2.1 "n" "r" "p" "d" 1 2 3
      [] "u" none false lookup_savedmodel_exporter (by simp [create_pipeline])
    simpa using h

/-- C4: the Dependency Resolver emits a control edge for every explicitly
declared predecessor of a step even when no data flows, duplicate edges
between the same ordered pair collapse to one, and the constructed
pipeline declares exactly the two control edges from the embeddings
extractor to the embeddings exporter and from the stats validator to the
lookup SavedModel exporter. -/
theorem resolver_control_edges :
    ∀ (specs : List StepSpec) (s : StepSpec) (p : String),
      (s ∈ specs → p ∈ s.explicitPredecessors → (p, s.identity) ∈ allEdges specs)
    ∧ (allEdges specs).Nodup
    ∧ ∀ (pn pr pid ds : String) (mif mgs dim nl : Nat)
        (ai : List (String × String)) (beam : List String) (uri : String)
        (mcc : Option String) (ec : Bool),
        ((create_pipeline pn pr pid ds mif mgs dim nl ai beam uri mcc ec).components.flatMap
            (fun t => t.explicitPredecessors.map (fun q => (q, t.identity)))) =
          [("ExtractEmbeddings", "BQExportEmbeddings"),
           ("EmbeddingsStatsValidator", "ExportEmbeddingLookup")] := by
  intro specs s p
  refine ⟨?_, List.nodup_dedup _, ?_⟩
  · intro hs hp
    unfold allEdges
    rw [List.mem_dedup]
    refine List.mem_flatMap.mpr ⟨s, hs, ?_⟩
    unfold stepEdges predIds
    exact List.mem_map.mpr ⟨p, List.mem_append_right _ hp, rfl⟩
  · intro pn pr pid ds mif mgs dim nl ai beam uri mcc ec
    rfl

/-- Witness for C4: the declared control edge from the embeddings
extractor reaches the resolved edge set of the constructed pipeline. -/
theorem resolver_control_edges_witness :
    ("ExtractEmbeddings", "BQExportEmbeddings") ∈
      allEdges (create_pipeline "n" "r" "p" "d" 1 2 3 4 [] [] "u").components :=
  (resolver_control_edges (create_pipeline "n" "r" "p" "d" 1 2 3 4 [] [] "u").components
      (embeddings_exporter "d") "ExtractEmbeddings").1
    (by simp [create_pipeline]) (by simp [embeddings_exporter])

/-- C2: the three-step chain extract, validate, publish with the
validation producing passed equal to false ends with extract SUCCEEDED,
validate SUCCEEDED, publish SKIPPED and overall run status SUCCEEDED; the
source instantiates this chain as the lookup model exporter feeding the
infra validator whose blessing gates the ScaNN index pusher. -/
theorem scenario_run_statuses :
    ((createRun scenario_specs scenario_exec false []).map
        (fun st => (statusOf st "extract", statusOf st "validate", statusOf st "publish",
                    overallStatus st))) =
      Except.ok (some Status.SUCCEEDED, some Status.SUCCEEDED, some Status.SKIPPED,
                 Status.SUCCEEDED)
    ∧ ∀ uri : String,
        (embedding_scann_pusher uri).gateBinding = some "infra_blessing"
      ∧ (embedding_scann_pusher uri).inputs.map (fun b => b.upstreamIdentity) =
          ["BuildScaNNIndex", "EmbeddingLookupInfraValidator"]
      ∧ infra_validator.inputs.map (fun b => b.upstreamIdentity) =
          ["ExportEmbeddingLookup"] := by
  exact ⟨rfl, fun uri => ⟨rfl, rfl, rfl⟩⟩

/-- C1: for a step whose gate binding resolves to artifact a, a passed
property that is false or absent sends the step to SKIPPED without ever
invoking the executor backend, while a true passed property lets the step
dispatch normally (its recorded status is never SKIPPED when no
predecessor forces a skip). -/
theorem gate_blocks_dispatch :
    ∀ (exec : ExecF) (ce : Bool) (st : RunState) (s : StepSpec) (n : String)
      (arts : List Artifact) (a : Artifact),
      s.gateBinding = some n →
      resolveInputs st.artifacts s.inputs = some arts →
      boundArtifact n s.inputs arts = some a →
      ((alookup "passed" a.props ≠ some true →
          (processStep exec ce st s).statuses =
            st.statuses ++ [(s.identity, Status.SKIPPED)]
        ∧ (processStep exec ce st s).invoked = st.invoked)
      ∧ (alookup "passed" a.props = some true → skipCond st s = false →
          ∃ v, (processStep exec ce st s).statuses = st.statuses ++ [(s.identity, v)]
            ∧ v ≠ Status.SKIPPED)) := by
  intro exec ce st s n arts a hgb hres hba
  have hgv : gateValue s arts = gateEval a := by
    unfold gateValue
    rw [hgb]
    show ((boundArtifact n s.inputs arts).map gateEval).getD false = gateEval a
    rw [hba]
    rfl
  constructor
  · intro hne
    have hfalse : gateEval a = false := by
      unfold gateEval
      rcases h : alookup "passed" a.props with _ | b
      · rfl
      · rcases b with _ | _
        · rfl
        · exact absurd h hne
    rcases hsk : skipCond st s with _ | _
    · unfold processStep
      rw [hsk]
      simp only [Bool.false_eq_true, if_false, hres, hgv, hfalse]
      exact ⟨rfl, rfl⟩
    · unfold processStep
      rw [hsk]
      simp only [if_true]
      exact ⟨rfl, rfl⟩
  · intro htrue hsk
    have htrue2 : gateEval a = true := by
      unfold gateEval
      rw [htrue]
      rfl
    unfold processStep
    rw [hsk]
    simp only [Bool.false_eq_true, if_false, hres, hgv, htrue2, if_true]
    unfold dispatch
    split
    · exact ⟨Status.CACHED, rfl, by simp⟩
    · split
      · exact ⟨Status.SUCCEEDED, rfl, by simp⟩
      · exact ⟨Status.FAILED, rfl, by simp⟩

/-- Witness for C1 on the source graph: processing the ScaNN index pusher
in a state where both producers succeeded but the blessing carries passed
equal to false records SKIPPED for ScaNNIndexPusher and leaves the
backend invocation log empty. -/
theorem gate_blocks_dispatch_witness :
    (processStep scenario_exec false gate_demo_state
        (embedding_scann_pusher "gs://registry")).statuses =
      gate_demo_state.statuses ++ [("ScaNNIndexPusher", Status.SKIPPED)]
    ∧ (processStep scenario_exec false gate_demo_state
        (embedding_scann_pusher "gs://registry")).invoked = gate_demo_state.invoked :=
  (gate_blocks_dispatch scenario_exec false gate_demo_state
      (embedding_scann_pusher "gs://registry") "infra_blessing"
      [gate_demo_model, gate_demo_blessing] gate_demo_blessing
      rfl rfl rfl).1 (by decide)

/-- Inversion of a successful graph validation: every construction check
passed and the validated graph packages the step set, the resolved edges
and the computed order. -/
theorem validateGraph_ok_inv {specs : List StepSpec} {v : ValidatedGraph}
    (h : validateGraph specs = Except.ok v) :
    firstDup (specs.map (fun s => s.identity)) = none
    ∧ specs.findSome? (checkInputs specs) = none
    ∧ specs.findSome? (checkTypes specs) = none
    ∧ specs.findSome? (checkGate specs) = none
    ∧ specs.findSome? checkBackend = none
    ∧ kahn (allEdges specs) specs.length specs [] = Except.ok v.order
    ∧ v.steps = specs ∧ v.edges = allEdges specs := by
  unfold validateGraph at h
  split at h
  · exact Except.noConfusion h
  · next hdup =>
    split at h
    · exact Except.noConfusion h
    · next hinp =>
      split at h
      · exact Except.noConfusion h
      · next htyp =>
        split at h
        · exact Except.noConfusion h
        · next hgate =>
          split at h
          · exact Except.noConfusion h
          · next hback =>
            split at h
            · exact Except.noConfusion h
            · next ord hkahn =>
              injection h with h2
              subst h2
              exact ⟨hdup, hinp, htyp, hgate, hback, hkahn, rfl, rfl⟩

/-- C6: construction errors abort run creation entirely before any step
executes (an erroneous validation makes createRun return the same error,
producing no run state at all), a graph that validates contains no step
with an invalid backend configuration, and any step set containing a step
that requests the managed remote backend with no remote parameters fails
validation rather than silently selecting another backend at dispatch
time. -/
theorem construction_errors_abort :
    ∀ (specs : List StepSpec) (exec : ExecF) (ce : Bool) (cache0 : CacheStore),
      (∀ e, validateGraph specs = Except.error e →
          createRun specs exec ce cache0 = Except.error e)
    ∧ (∀ v, validateGraph specs = Except.ok v →
        ∀ s ∈ specs, ¬(s.executorPolicy.kind = PolicyKind.MANAGED_REMOTE ∧
            s.executorPolicy.remoteParams = []))
    ∧ ((∃ s ∈ specs, s.executorPolicy.kind = PolicyKind.MANAGED_REMOTE ∧
          s.executorPolicy.remoteParams = []) →
        ∃ e, validateGraph specs = Except.error e) := by
  intro specs exec ce cache0
  have hbad : ∀ v, validateGraph specs = Except.ok v →
      ∀ s ∈ specs, ¬(s.executorPolicy.kind = PolicyKind.MANAGED_REMOTE ∧
        s.executorPolicy.remoteParams = []) := by
    intro v hv s hs hcontra
    have hb := (validateGraph_ok_inv hv).2.2.2.2.1
    have hnone := (List.findSome?_eq_none_iff.mp hb) s hs
    unfold checkBackend at hnone
    rw [if_pos hcontra] at hnone
    exact Option.noConfusion hnone
  refine ⟨?_, hbad, ?_⟩
  · intro e he
    unfold createRun
    rw [he]
  · intro hex
    rcases hv : validateGraph specs with e | v
    · exact ⟨e, rfl⟩
    · rcases hex with ⟨s, hs, hcontra⟩
      exact absurd hcontra (hbad v hv s hs)

/-- Witness for C6: a step set containing an invalid backend
configuration is rejected at validation, and run creation aborts with the
same BackendConfigError. -/
theorem construction_errors_abort_witness :
    createRun [bad_backend_step] scenario_exec false [] =
      Except.error (ConstructionError.BackendConfigError "bad") :=
  (construction_errors_abort [bad_backend_step] scenario_exec false []).1
    (ConstructionError.BackendConfigError "bad") rfl

/-- A ready step has no incoming edge from any remaining identity. -/
theorem readyStep_spec {edges : List (String × String)} {rids : List String}
    {s : StepSpec} (h : readyStep edges rids s = true) :
    ∀ e ∈ edges, e.2 = s.identity → e.1 ∉ rids := by
  intro e he hb ha
  unfold readyStep at h
  rw [List.all_eq_true] at h
  have h2 := h e he
  rw [decide_eq_true_iff] at h2
  exact h2 ⟨hb, ha⟩

/-- Soundness of the Kahn-style order computation: a successful result is
a topological order (no edge from a later step to an earlier one), free
of self loops, a permutation-complete enumeration of the input steps, and
duplicate free. -/
theorem kahn_sound (edges : List (String × String)) :
    ∀ (fuel : Nat) (remaining acc out : List StepSpec),
      kahn edges fuel remaining acc = Except.ok out →
      (∀ s ∈ acc, ∀ t ∈ remaining, (t.identity, s.identity) ∉ edges) →
      acc.Pairwise (fun s t => (t.identity, s.identity) ∉ edges) →
      (∀ s ∈ acc, (s.identity, s.identity) ∉ edges) →
      ((acc ++ remaining).map (fun s => s.identity)).Nodup →
      out.Pairwise (fun s t => (t.identity, s.identity) ∉ edges)
      ∧ (∀ s ∈ out, (s.identity, s.identity) ∉ edges)
      ∧ (∀ s ∈ out, s ∈ acc ∨ s ∈ remaining)
      ∧ (∀ s ∈ acc, s ∈ out)
      ∧ (∀ s ∈ remaining, s ∈ out)
      ∧ (out.map (fun s => s.identity)).Nodup := by
  intro fuel
  induction fuel with
  | zero =>
    intro remaining acc out h h1 h2 h3 h4
    rcases remaining with _ | ⟨r, rs⟩
    · have hout : acc = out := by simpa [kahn] using h
      subst hout
      exact ⟨h2, h3, fun s hs => Or.inl hs, fun s hs => hs, by simp, by simpa using h4⟩
    · simp [kahn] at h
  | succ fuel ih =>
    intro remaining acc out h h1 h2 h3 h4
    rcases remaining with _ | ⟨r, rs⟩
    · have hout : acc = out := by simpa [kahn] using h
      subst hout
      exact ⟨h2, h3, fun s hs => Or.inl hs, fun s hs => hs, by simp, by simpa using h4⟩
    · simp only [kahn] at h
      split at h
      · exact Except.noConfusion h
      · next hne =>
        have hmain := ih _ _ _ h ?hone ?htwo ?hthree ?hfour
        case hone =>
          intro s hs t ht
          have htmem : t ∈ r :: rs := (List.mem_filter.mp ht).1
          rcases List.mem_append.mp hs with hsa | hsd
          · exact h1 s hsa t htmem
          · have hready := (List.mem_filter.mp hsd).2
            intro hedge
            exact readyStep_spec hready _ hedge rfl (List.mem_map_of_mem _ htmem)
        case htwo =>
          rw [List.pairwise_append]
          refine ⟨h2, ?_, ?_⟩
          · refine List.pairwise_of_forall_mem_list ?_
            intro a ha b hb
            have hready := (List.mem_filter.mp ha).2
            have hbmem : b ∈ r :: rs := (List.mem_filter.mp hb).1
            intro hedge
            exact readyStep_spec hready _ hedge rfl (List.mem_map_of_mem _ hbmem)
          · intro a ha b hb
            exact h1 a ha b (List.mem_filter.mp hb).1
        case hthree =>
          intro s hs
          rcases List.mem_append.mp hs with hsa | hsd
          · exact h3 s hsa
          · have hready := (List.mem_filter.mp hsd).2
            intro hedge
            exact readyStep_spec hready _ hedge rfl
              (List.mem_map_of_mem _ (List.mem_filter.mp hsd).1)
        case hfour =>
          have hperm : List.Perm
              ((acc ++ (r :: rs).filter
                  (readyStep edges ((r :: rs).map (fun s => s.identity)))) ++
                (r :: rs).filter
                  (fun s => !readyStep edges ((r :: rs).map (fun s => s.identity)) s))
              (acc ++ (r :: rs)) := by
            rw [List.append_assoc]
            exact List.Perm.append_left acc (List.filter_append_perm _ _)
          exact ((hperm.map (fun s => s.identity)).nodup_iff).mpr h4
        obtain ⟨p1, p2, p3, p4, p5, p6⟩ := hmain
        refine ⟨p1, p2, ?_, ?_, ?_, p6⟩
        · intro s hs
          rcases p3 s hs with hacc | hrst
          · rcases List.mem_append.mp hacc with hsa | hsd
            · exact Or.inl hsa
            · exact Or.inr (List.mem_filter.mp hsd).1
          · exact Or.inr (List.mem_filter.mp hrst).1
        · intro s hs
          exact p4 s (List.mem_append_left _ hs)
        · intro s hs
          rcases hready : readyStep edges ((r :: rs).map (fun s => s.identity)) s with _ | _
          · exact p5 s (List.mem_filter.mpr ⟨hs, by rw [hready]; rfl⟩)
          · exact p4 s (List.mem_append_right _ (List.mem_filter.mpr ⟨hs, hready⟩))

/-- Characterization of the resolved edge set: an edge runs from a to b
exactly when some step with identity b lists a among its predecessor
identities. -/
theorem mem_allEdges {specs : List StepSpec} {a b : String} :
    (a, b) ∈ allEdges specs ↔ ∃ s ∈ specs, s.identity = b ∧ a ∈ predIds s := by
  unfold allEdges
  rw [List.mem_dedup, List.mem_flatMap]
  constructor
  · rintro ⟨s, hs, hmem⟩
    unfold stepEdges at hmem
    rcases List.mem_map.mp hmem with ⟨p, hp, heq⟩
    rcases heq
    exact ⟨s, hs, rfl, hp⟩
  · rintro ⟨s, hs, rfl, hp⟩
    exact ⟨s, hs, List.mem_map.mpr ⟨a, hp, rfl⟩⟩

/-- A no-dup-reporting identity list has no duplicates. -/
theorem firstDup_none {l : List String} (h : firstDup l = none) : l.Nodup := by
  induction l with
  | nil => exact List.nodup_nil
  | cons x xs ih =>
    unfold firstDup at h
    split at h
    · exact Option.noConfusion h
    · next hx => exact List.nodup_cons.mpr ⟨hx, ih h⟩

/-- Lookup in a one-entry list pins down key and value. -/
theorem alookup_singleton {α : Type} {k k2 : String} {v x : α}
    (h : alookup k ((k2, v) :: []) = some x) : k2 = k ∧ x = v := by
  unfold alookup at h
  split at h
  · next heq =>
    injection h with h3
    exact ⟨heq, h3.symm⟩
  · exact Option.noConfusion h

/-- A successful lookup in an appended list came from one side. -/
theorem alookup_append_cases {α : Type} {k : String} {l1 l2 : List (String × α)}
    {v : α} (h : alookup k (l1 ++ l2) = some v) :
    alookup k l1 = some v ∨ alookup k l2 = some v := by
  rw [alookup_append] at h
  rcases hx : alookup k l1 with _ | w
  · rw [hx] at h
    exact Or.inr h
  · rw [hx] at h
    exact Or.inl h

/-- A recorded status survives the rest of the run unchanged. -/
theorem runAux_statusOf_mono (exec : ExecF) (ce : Bool) (todo : List StepSpec) :
    ∀ (st : RunState) (id : String) (x : Status),
      statusOf st id = some x → statusOf (runAux exec ce todo st) id = some x := by
  induction todo with
  | nil => exact fun st id x h => h
  | cons s rest ih =>
    intro st id x h
    show statusOf (runAux exec ce rest (processStep exec ce st s)) id = some x
    refine ih _ id x ?_
    obtain ⟨v, hst, _⟩ := processStep_statuses exec ce st s
    unfold statusOf at h ⊢
    rw [hst]
    exact alookup_append_of_some _ h

/-- When the skip condition is false, no predecessor of the step carries
FAILED status. -/
theorem skipCond_false_no_failed {st : RunState} {s : StepSpec}
    (h : skipCond st s = false) :
    ∀ p ∈ predIds s, alookup p st.statuses ≠ some Status.FAILED := by
  unfold skipCond at h
  rw [Bool.or_eq_false_iff] at h
  have h1 := h.1
  rw [List.any_eq_false] at h1
  intro p hp hcon
  have h2 := h1 p hp
  rw [decide_eq_true_iff] at h2
  exact h2 hcon

/-- Scheduler ordering invariant: at every point of a run over steps
drawn from a duplicate-free, topologically sorted step list, every step
ever dispatched to the backend has all its in-graph predecessors already
recorded with a terminal, satisfying status (SUCCEEDED, CACHED or
SKIPPED). -/
theorem runAux_order_inv (exec : ExecF) (ce : Bool) (specs : List StepSpec)
    (hnd : (specs.map (fun s => s.identity)).Nodup) :
    ∀ (todo : List StepSpec) (st : RunState),
      (∀ s ∈ todo, s ∈ specs) →
      (∀ id x, alookup id st.statuses = some x →
        (x = Status.SUCCEEDED ∨ x = Status.FAILED ∨ x = Status.SKIPPED ∨ x = Status.CACHED)) →
      ((st.statuses.map Prod.fst ++ todo.map (fun s => s.identity)).Pairwise
        (fun a b => (b, a) ∉ allEdges specs)) →
      (∀ s ∈ todo, (s.identity, s.identity) ∉ allEdges specs) →
      (∀ s ∈ todo, ∀ a ∈ predIds s, a ∈ specs.map (fun t => t.identity) →
        (a ∈ st.statuses.map Prod.fst ∨ a ∈ todo.map (fun t => t.identity))) →
      (∀ b ∈ st.invoked, ∀ s2 ∈ specs, s2.identity = b →
        ∀ a ∈ predIds s2, a ∈ specs.map (fun t => t.identity) →
          ∃ x, alookup a st.statuses = some x ∧
            (x = Status.SUCCEEDED ∨ x = Status.CACHED ∨ x = Status.SKIPPED)) →
      ∀ b ∈ (runAux exec ce todo st).invoked, ∀ s2 ∈ specs, s2.identity = b →
        ∀ a ∈ predIds s2, a ∈ specs.map (fun t => t.identity) →
          ∃ x, alookup a (runAux exec ce todo st).statuses = some x ∧
            (x = Status.SUCCEEDED ∨ x = Status.CACHED ∨ x = Status.SKIPPED) := by
  intro todo
  induction todo with
  | nil =>
    intro st _ _ _ _ _ hgood
    exact hgood
  | cons s rest ih =>
    intro st htodo hterm hpair hself hcover hgood
    obtain ⟨v, hstat, hv⟩ := processStep_statuses exec ce st s
    have hsspecs : s ∈ specs := htodo s (List.mem_cons_self s rest)
    have hD : (processStep exec ce st s).statuses.map Prod.fst =
        st.statuses.map Prod.fst ++ [s.identity] := by
      rw [hstat]
      simp
    rw [List.map_cons] at hpair
    have hpredDone : skipCond st s = false →
        ∀ a ∈ predIds s, a ∈ specs.map (fun t => t.identity) →
          ∃ x, alookup a st.statuses = some x ∧
            (x = Status.SUCCEEDED ∨ x = Status.CACHED ∨ x = Status.SKIPPED) := by
      intro hsk a hpa haspec
      have hedge : (a, s.identity) ∈ allEdges specs :=
        mem_allEdges.mpr ⟨s, hsspecs, rfl, hpa⟩
      have hin : a ∈ st.statuses.map Prod.fst := by
        rcases hcover s (List.mem_cons_self s rest) a hpa haspec with hD2 | hT
        · exact hD2
        · rw [List.map_cons] at hT
          rcases List.mem_cons.mp hT with ha1 | ha2
          · exact absurd (ha1 ▸ hedge) (hself s (List.mem_cons_self s rest))
          · obtain ⟨_, hcons, _⟩ := List.pairwise_append.mp hpair
            obtain ⟨hhead, _⟩ := List.pairwise_cons.mp hcons
            exact absurd hedge (hhead a ha2)
      obtain ⟨x, hx⟩ := alookup_isSome_of_mem hin
      have hterm4 := hterm a x hx
      have hnf : x ≠ Status.FAILED := by
        intro hxF
        subst hxF
        exact skipCond_false_no_failed hsk a hpa hx
      refine ⟨x, hx, ?_⟩
      rcases hterm4 with h | h | h | h
      · exact Or.inl h
      · exact absurd h hnf
      · exact Or.inr (Or.inr h)
      · exact Or.inr (Or.inl h)
    show ∀ b ∈ (runAux exec ce rest (processStep exec ce st s)).invoked,
        ∀ s2 ∈ specs, s2.identity = b →
        ∀ a ∈ predIds s2, a ∈ specs.map (fun t => t.identity) →
          ∃ x, alookup a (runAux exec ce rest (processStep exec ce st s)).statuses = some x ∧
            (x = Status.SUCCEEDED ∨ x = Status.CACHED ∨ x = Status.SKIPPED)
    refine ih (processStep exec ce st s)
      (fun t ht => htodo t (List.mem_cons_of_mem s ht)) ?_ ?_
      (fun t ht => hself t (List.mem_cons_of_mem s ht)) ?_ ?_
    · intro id x hx
      rw [hstat] at hx
      rcases alookup_append_cases hx with h1 | h2
      · exact hterm id x h1
      · rcases alookup_singleton h2 with ⟨_, rfl⟩
        exact hv
    · rw [hD, List.append_assoc, List.singleton_append]
      exact hpair
    · intro t ht a hpa haspec
      rcases hcover t (List.mem_cons_of_mem s ht) a hpa haspec with hD2 | hT
      · left
        rw [hD]
        exact List.mem_append_left _ hD2
      · rw [List.map_cons] at hT
        rcases List.mem_cons.mp hT with ha1 | ha2
        · left
          rw [hD, ha1]
          exact List.mem_append_right _ (List.mem_singleton.mpr rfl)
        · right
          exact ha2
    · intro b hb s2 hs2 hs2b a hpa haspec
      rcases processStep_invoked exec ce st s with hinv | ⟨hinv, hsk⟩
      · rw [hinv] at hb
        obtain ⟨x, hx, hgoodx⟩ := hgood b hb s2 hs2 hs2b a hpa haspec
        exact ⟨x, by rw [hstat]; exact alookup_append_of_some _ hx, hgoodx⟩
      · rw [hinv] at hb
        rcases List.mem_append.mp hb with hb1 | hb2
        · obtain ⟨x, hx, hgoodx⟩ := hgood b hb1 s2 hs2 hs2b a hpa haspec
          exact ⟨x, by rw [hstat]; exact alookup_append_of_some _ hx, hgoodx⟩
        · have hbs : b = s.identity := by simpa using hb2
          have hs2s : s2 = s :=
            List.inj_on_of_nodup_map hnd hs2 hsspecs (by rw [hs2b, hbs])
          subst hs2s
          obtain ⟨x, hx, hgoodx⟩ := hpredDone hsk a hpa haspec
          exact ⟨x, by rw [hstat]; exact alookup_append_of_some _ hx, hgoodx⟩

/-- C3: for every graph that validates, the computed run order is
topological (no edge from a later step to an earlier one) and complete,
and in any run no step is dispatched to the backend before every one of
its in-graph predecessors, along data or control edges, holds a terminal
satisfying status (SUCCEEDED, CACHED, or SKIPPED). -/
theorem topological_scheduling :
    ∀ (specs : List StepSpec) (v : ValidatedGraph),
      validateGraph specs = Except.ok v →
      v.order.Pairwise (fun s t => (t.identity, s.identity) ∉ v.edges)
      ∧ (∀ s ∈ specs, s ∈ v.order)
      ∧ ∀ (exec : ExecF) (ce : Bool) (cache0 : CacheStore) (a b : String),
          (a, b) ∈ v.edges → a ∈ specs.map (fun s => s.identity) →
          b ∈ (runGraph exec ce v cache0).invoked →
          ∃ x, statusOf (runGraph exec ce v cache0) a = some x ∧
            (x = Status.SUCCEEDED ∨ x = Status.CACHED ∨ x = Status.SKIPPED) := by
  intro specs v h
  obtain ⟨hdup, _, _, _, _, hkahn, hsteps, hedges⟩ := validateGraph_ok_inv h
  have hnodup : (specs.map (fun s => s.identity)).Nodup := firstDup_none hdup
  have hk := kahn_sound (allEdges specs) specs.length specs [] v.order hkahn
    (fun s hs => absurd hs (List.not_mem_nil s))
    List.Pairwise.nil
    (fun s hs => absurd hs (List.not_mem_nil s))
    (by simpa using hnodup)
  obtain ⟨hp1, hp2, hp3, _, hall, _⟩ := hk
  have horder : ∀ s ∈ v.order, s ∈ specs := by
    intro s hs
    rcases hp3 s hs with h0 | h1
    · exact absurd h0 (List.not_mem_nil s)
    · exact h1
  refine ⟨?_, hall, ?_⟩
  · rw [hedges]
    exact hp1
  · intro exec ce cache0 a b hab ha hb
    rw [hedges] at hab
    obtain ⟨s2, hs2, hs2b, hpa⟩ := mem_allEdges.mp hab
    refine runAux_order_inv exec ce specs hnodup v.order (initState cache0)
      horder ?_ ?_ hp2 ?_ ?_ b hb s2 hs2 hs2b a hpa ha
    · intro id x hx
      exact Option.noConfusion hx
    · show (([] : List String) ++ v.order.map (fun s => s.identity)).Pairwise _
      rw [List.nil_append]
      refine List.Pairwise.map _ ?_ hp1
      intro s t hst
      exact hst
    · intro s hs a2 hpa2 ha2
      right
      rcases List.mem_map.mp ha2 with ⟨t, ht, rfl⟩
      exact List.mem_map.mpr ⟨t, hall t ht, rfl⟩
    · intro b2 hb2
      exact absurd hb2 (List.not_mem_nil b2)

/-- Witness for C3: the three-step scenario graph validates, its computed
order is its declaration order, and that order is topological for the
resolved edges. -/
theorem topological_scheduling_witness :
    validateGraph scenario_specs = Except.ok
      { steps := scenario_specs, edges := allEdges scenario_specs
      , order := scenario_specs }
    ∧ scenario_specs.Pairwise
        (fun s t => (t.identity, s.identity) ∉ allEdges scenario_specs) := by
  constructor
  · rfl
  · exact (topological_scheduling scenario_specs
      { steps := scenario_specs, edges := allEdges scenario_specs
      , order := scenario_specs } rfl).1

/-- Branch equation: a true skip condition sends the step to SKIPPED. -/
theorem processStep_skipTrue {exec : ExecF} {ce : Bool} {st : RunState} {s : StepSpec}
    (h : skipCond st s = true) :
    processStep exec ce st s = setStatus st s Status.SKIPPED := by
  unfold processStep
  simp [h]

/-- Branch equation: unresolvable inputs send the step to FAILED. -/
theorem processStep_resolveNone {exec : ExecF} {ce : Bool} {st : RunState} {s : StepSpec}
    (h1 : skipCond st s = false) (h2 : resolveInputs st.artifacts s.inputs = none) :
    processStep exec ce st s = setStatus st s Status.FAILED := by
  unfold processStep
  simp [h1, h2]

/-- Branch equation: a false gate sends the step to SKIPPED. -/
theorem processStep_gateFalse {exec : ExecF} {ce : Bool} {st : RunState} {s : StepSpec}
    {arts : List Artifact} (h1 : skipCond st s = false)
    (h2 : resolveInputs st.artifacts s.inputs = some arts)
    (h3 : gateValue s arts = false) :
    processStep exec ce st s = setStatus st s Status.SKIPPED := by
  unfold processStep
  simp [h1, h2, h3]

/-- Branch equation: a ready, gate-approved step dispatches. -/
theorem processStep_dispatchEq {exec : ExecF} {ce : Bool} {st : RunState} {s : StepSpec}
    {arts : List Artifact} (h1 : skipCond st s = false)
    (h2 : resolveInputs st.artifacts s.inputs = some arts)
    (h3 : gateValue s arts = true) :
    processStep exec ce st s = dispatch exec ce st s arts := by
  unfold processStep
  simp [h1, h2, h3]

/-- Dispatch equation on a cache hit. -/
theorem dispatch_hit {exec : ExecF} {st : RunState} {s : StepSpec}
    {arts : List Artifact} {outs : ArtifactStore}
    (h : cacheLookup (cacheKey s arts) st.cache = some outs) :
    dispatch exec true st s arts =
      { statuses := st.statuses ++ [(s.identity, Status.CACHED)]
      , artifacts := st.artifacts ++ outs
      , cache := st.cache
      , invoked := st.invoked
      , observedKeys := st.observedKeys ++ [cacheKey s arts] } := by
  unfold dispatch
  simp [h]

/-- Dispatch equation on a cache miss with successful execution. -/
theorem dispatch_miss_ok {exec : ExecF} {st : RunState} {s : StepSpec}
    {arts : List Artifact} {raw : List (Nat × List (String × Bool))}
    (h : cacheLookup (cacheKey s arts) st.cache = none) (he : exec s arts = some raw) :
    dispatch exec true st s arts =
      { statuses := st.statuses ++ [(s.identity, Status.SUCCEEDED)]
      , artifacts := st.artifacts ++ mkOutputs s.identity s.outputs raw
      , cache := (cacheKey s arts, mkOutputs s.identity s.outputs raw) :: st.cache
      , invoked := st.invoked ++ [s.identity]
      , observedKeys := st.observedKeys ++ [cacheKey s arts] } := by
  unfold dispatch
  simp [h, he]

/-- Dispatch equation on a cache miss with failing execution. -/
theorem dispatch_miss_fail {exec : ExecF} {st : RunState} {s : StepSpec}
    {arts : List Artifact}
    (h : cacheLookup (cacheKey s arts) st.cache = none) (he : exec s arts = none) :
    dispatch exec true st s arts =
      { statuses := st.statuses ++ [(s.identity, Status.FAILED)]
      , artifacts := st.artifacts
      , cache := st.cache
      , invoked := st.invoked ++ [s.identity]
      , observedKeys := st.observedKeys ++ [cacheKey s arts] } := by
  unfold dispatch
  simp [h, he]

/-- The skip condition only inspects FAILED and SKIPPED statuses, which
the cache view preserves, so it is invariant under the cache view. -/
theorem skipCond_cacheView {st1 st2 : RunState} (s : StepSpec)
    (h : st2.statuses = st1.statuses.map (fun p => (p.1, cacheView p.2))) :
    skipCond st2 s = skipCond st1 s := by
  unfold skipCond statusOf
  rw [h]
  have hF : (fun p => decide (alookup p
        (st1.statuses.map (fun q => (q.1, cacheView q.2))) = some Status.FAILED)) =
      (fun p => decide (alookup p st1.statuses = some Status.FAILED)) := by
    funext p
    rw [alookup_map_value]
    rcases ho : alookup p st1.statuses with _ | w
    · rfl
    · rcases w <;> rfl
  have hS : (fun p => decide (alookup p
        (st1.statuses.map (fun q => (q.1, cacheView q.2))) = some Status.SKIPPED)) =
      (fun p => decide (alookup p st1.statuses = some Status.SKIPPED)) := by
    funext p
    rw [alookup_map_value]
    rcases ho : alookup p st1.statuses with _ | w
    · rfl
    · rcases w <;> rfl
  rw [hF, hS]

/-- Cache entries keyed under identities not processed by the remaining
steps survive the rest of the run unchanged. -/
theorem runAux_cache_stable (exec : ExecF) (ce : Bool) :
    ∀ (todo : List StepSpec) (st : RunState) (k : CacheKey),
      (∀ s ∈ todo, s.identity ≠ k.stepIdentity) →
      cacheLookup k (runAux exec ce todo st).cache = cacheLookup k st.cache := by
  intro todo
  induction todo with
  | nil => intro st k _; rfl
  | cons s rest ih =>
    intro st k h
    show cacheLookup k (runAux exec ce rest (processStep exec ce st s)).cache =
      cacheLookup k st.cache
    rw [ih _ k (fun t ht => h t (List.mem_cons_of_mem s ht)),
      processStep_cache_stable exec ce st s k
        (fun he => h s (List.mem_cons_self s rest) he.symm)]

/-- Simulation of a cached re-run: over a duplicate-free remaining step
list, a second run whose statuses are the cache view of the first, whose
artifact store agrees, and whose cache is the final cache of the first
run (with no pre-existing entries for remaining steps in the first run),
finishes with the cache-view statuses, identical artifacts, and the cache
unchanged. -/
theorem run_twice_sim (exec : ExecF) :
    ∀ (todo : List StepSpec) (st1 st2 : RunState),
      (todo.map (fun t => t.identity)).Nodup →
      st2.artifacts = st1.artifacts →
      st2.statuses = st1.statuses.map (fun p => (p.1, cacheView p.2)) →
      st2.cache = (runAux exec true todo st1).cache →
      (∀ s ∈ todo, ∀ k : CacheKey, k.stepIdentity = s.identity →
        cacheLookup k st1.cache = none) →
      (runAux exec true todo st2).artifacts = (runAux exec true todo st1).artifacts
      ∧ (runAux exec true todo st2).statuses =
          (runAux exec true todo st1).statuses.map (fun p => (p.1, cacheView p.2))
      ∧ (runAux exec true todo st2).cache = (runAux exec true todo st1).cache := by
  intro todo
  induction todo with
  | nil =>
    intro st1 st2 _ hart hstat hcache _
    exact ⟨hart, hstat, hcache⟩
  | cons s rest ih =>
    intro st1 st2 hnd hart hstat hcache hfresh
    rw [List.map_cons] at hnd
    have hndrest : (rest.map (fun t => t.identity)).Nodup := (List.nodup_cons.mp hnd).2
    have hsnotin : s.identity ∉ rest.map (fun t => t.identity) :=
      (List.nodup_cons.mp hnd).1
    have hrestne : ∀ t ∈ rest, t.identity ≠ s.identity := by
      intro t ht he
      exact hsnotin (List.mem_map.mpr ⟨t, ht, he⟩)
    have hsk2 : skipCond st2 s = skipCond st1 s := skipCond_cacheView s hstat
    have hres2 : resolveInputs st2.artifacts s.inputs =
        resolveInputs st1.artifacts s.inputs := by rw [hart]
    rcases hsk : skipCond st1 s with _ | _
    · rcases hres : resolveInputs st1.artifacts s.inputs with _ | arts
      · have e1 : processStep exec true st1 s = setStatus st1 s Status.FAILED :=
          processStep_resolveNone hsk hres
        have e2 : processStep exec true st2 s = setStatus st2 s Status.FAILED :=
          processStep_resolveNone (hsk2.trans hsk) (hres2.trans hres)
        refine ih (processStep exec true st1 s) (processStep exec true st2 s)
          hndrest ?_ ?_ ?_ ?_
        · rw [e1, e2]
          exact hart
        · rw [e1, e2]
          show st2.statuses ++ [(s.identity, Status.FAILED)] =
            (st1.statuses ++ [(s.identity, Status.FAILED)]).map
              (fun p => (p.1, cacheView p.2))
          rw [List.map_append, hstat]
          rfl
        · rw [e2]
          exact hcache
        · intro t ht k hk
          rw [e1]
          exact hfresh t (List.mem_cons_of_mem s ht) k hk
      · rcases hgv : gateValue s arts with _ | _
        · have e1 : processStep exec true st1 s = setStatus st1 s Status.SKIPPED :=
            processStep_gateFalse hsk hres hgv
          have e2 : processStep exec true st2 s = setStatus st2 s Status.SKIPPED :=
            processStep_gateFalse (hsk2.trans hsk) (hres2.trans hres) hgv
          refine ih (processStep exec true st1 s) (processStep exec true st2 s)
            hndrest ?_ ?_ ?_ ?_
          · rw [e1, e2]
            exact hart
          · rw [e1, e2]
            show st2.statuses ++ [(s.identity, Status.SKIPPED)] =
              (st1.statuses ++ [(s.identity, Status.SKIPPED)]).map
                (fun p => (p.1, cacheView p.2))
            rw [List.map_append, hstat]
            rfl
          · rw [e2]
            exact hcache
          · intro t ht k hk
            rw [e1]
            exact hfresh t (List.mem_cons_of_mem s ht) k hk
        · have hkeyfresh : cacheLookup (cacheKey s arts) st1.cache = none :=
            hfresh s (List.mem_cons_self s rest) _ rfl
          have e1d : processStep exec true st1 s = dispatch exec true st1 s arts :=
            processStep_dispatchEq hsk hres hgv
          have e2d : processStep exec true st2 s = dispatch exec true st2 s arts :=
            processStep_dispatchEq (hsk2.trans hsk) (hres2.trans hres) hgv
          have hstable : cacheLookup (cacheKey s arts)
              (runAux exec true rest (processStep exec true st1 s)).cache =
              cacheLookup (cacheKey s arts) (processStep exec true st1 s).cache :=
            runAux_cache_stable exec true rest _ _ (fun t ht => hrestne t ht)
          rcases hex : exec s arts with _ | raw
          · have e1 : dispatch exec true st1 s arts =
                { statuses := st1.statuses ++ [(s.identity, Status.FAILED)]
                , artifacts := st1.artifacts
                , cache := st1.cache
                , invoked := st1.invoked ++ [s.identity]
                , observedKeys := st1.observedKeys ++ [cacheKey s arts] } :=
              dispatch_miss_fail hkeyfresh hex
            have hlook2 : cacheLookup (cacheKey s arts) st2.cache = none := by
              rw [hcache]
              show cacheLookup _
                (runAux exec true rest (processStep exec true st1 s)).cache = none
              rw [hstable, e1d, e1]
              exact hkeyfresh
            have e2 : dispatch exec true st2 s arts =
                { statuses := st2.statuses ++ [(s.identity, Status.FAILED)]
                , artifacts := st2.artifacts
                , cache := st2.cache
                , invoked := st2.invoked ++ [s.identity]
                , observedKeys := st2.observedKeys ++ [cacheKey s arts] } :=
              dispatch_miss_fail hlook2 hex
            refine ih (processStep exec true st1 s) (processStep exec true st2 s)
              hndrest ?_ ?_ ?_ ?_
            · rw [e1d, e1, e2d, e2]
              exact hart
            · rw [e1d, e1, e2d, e2]
              show st2.statuses ++ [(s.identity, Status.FAILED)] =
                (st1.statuses ++ [(s.identity, Status.FAILED)]).map
                  (fun p => (p.1, cacheView p.2))
              rw [List.map_append, hstat]
              rfl
            · rw [e2d, e2]
              exact hcache
            · intro t ht k hk
              rw [e1d, e1]
              exact hfresh t (List.mem_cons_of_mem s ht) k hk
          · have e1 : dispatch exec true st1 s arts =
                { statuses := st1.statuses ++ [(s.identity, Status.SUCCEEDED)]
                , artifacts := st1.artifacts ++ mkOutputs s.identity s.outputs raw
                , cache := (cacheKey s arts, mkOutputs s.identity s.outputs raw) :: st1.cache
                , invoked := st1.invoked ++ [s.identity]
                , observedKeys := st1.observedKeys ++ [cacheKey s arts] } :=
              dispatch_miss_ok hkeyfresh hex
            have hlook2 : cacheLookup (cacheKey s arts) st2.cache =
                some (mkOutputs s.identity s.outputs raw) := by
              rw [hcache]
              show cacheLookup _
                (runAux exec true rest (processStep exec true st1 s)).cache = _
              rw [hstable, e1d, e1]
              show cacheLookup (cacheKey s arts)
                ((cacheKey s arts, mkOutputs s.identity s.outputs raw) :: st1.cache) = _
              unfold cacheLookup
              rw [if_pos rfl]
            have e2 : dispatch exec true st2 s arts =
                { statuses := st2.statuses ++ [(s.identity, Status.CACHED)]
                , artifacts := st2.artifacts ++ mkOutputs s.identity s.outputs raw
                , cache := st2.cache
                , invoked := st2.invoked
                , observedKeys := st2.observedKeys ++ [cacheKey s arts] } :=
              dispatch_hit hlook2
            refine ih (processStep exec true st1 s) (processStep exec true st2 s)
              hndrest ?_ ?_ ?_ ?_
            · rw [e1d, e1, e2d, e2]
              show st2.artifacts ++ _ = st1.artifacts ++ _
              rw [hart]
            · rw [e1d, e1, e2d, e2]
              show st2.statuses ++ [(s.identity, Status.CACHED)] =
                (st1.statuses ++ [(s.identity, Status.SUCCEEDED)]).map
                  (fun p => (p.1, cacheView p.2))
              rw [List.map_append, hstat]
              rfl
            · rw [e2d, e2]
              exact hcache
            · intro t ht k hk
              rw [e1d, e1]
              show cacheLookup k
                ((cacheKey s arts, mkOutputs s.identity s.outputs raw) :: st1.cache) = none
              rw [cacheLookup_cons_ne ?_]
              · exact hfresh t (List.mem_cons_of_mem s ht) k hk
              · intro he
                refine hrestne t ht ?_
                rw [← hk, ← he]
                rfl
    · have e1 : processStep exec true st1 s = setStatus st1 s Status.SKIPPED :=
        processStep_skipTrue hsk
      have e2 : processStep exec true st2 s = setStatus st2 s Status.SKIPPED :=
        processStep_skipTrue (hsk2.trans hsk)
      refine ih (processStep exec true st1 s) (processStep exec true st2 s)
        hndrest ?_ ?_ ?_ ?_
      · rw [e1, e2]
        exact hart
      · rw [e1, e2]
        show st2.statuses ++ [(s.identity, Status.SKIPPED)] =
          (st1.statuses ++ [(s.identity, Status.SKIPPED)]).map
            (fun p => (p.1, cacheView p.2))
        rw [List.map_append, hstat]
        rfl
      · rw [e2]
        exact hcache
      · intro t ht k hk
        rw [e1]
        exact hfresh t (List.mem_cons_of_mem s ht) k hk

/-- C7: running the same validated graph twice with the same executor and
caching enabled, the second run over the cache produced by the first
yields CACHED status for every step that SUCCEEDED in the first run, an
artifact store identical to the first (hence fingerprint-identical
outputs), and statuses that are exactly the cache view of the first run. -/
theorem cache_idempotence :
    ∀ (specs : List StepSpec) (v : ValidatedGraph) (exec : ExecF),
      validateGraph specs = Except.ok v →
      (runGraph exec true v (runGraph exec true v []).cache).statuses =
        (runGraph exec true v []).statuses.map (fun p => (p.1, cacheView p.2))
      ∧ (runGraph exec true v (runGraph exec true v []).cache).artifacts =
          (runGraph exec true v []).artifacts
      ∧ ∀ id, statusOf (runGraph exec true v []) id = some Status.SUCCEEDED →
          statusOf (runGraph exec true v (runGraph exec true v []).cache) id =
            some Status.CACHED := by
  intro specs v exec h
  obtain ⟨hdup, _, _, _, _, hkahn, _, _⟩ := validateGraph_ok_inv h
  have hnodup : (specs.map (fun s => s.identity)).Nodup := firstDup_none hdup
  have hk := kahn_sound (allEdges specs) specs.length specs [] v.order hkahn
    (fun s hs => absurd hs (List.not_mem_nil s))
    List.Pairwise.nil
    (fun s hs => absurd hs (List.not_mem_nil s))
    (by simpa using hnodup)
  have hordnd : (v.order.map (fun t => t.identity)).Nodup := hk.2.2.2.2.2
  have hsim := run_twice_sim exec v.order (initState [])
    (initState (runGraph exec true v []).cache) hordnd rfl rfl rfl
    (fun s _ k _ => rfl)
  obtain ⟨hart, hstat, _⟩ := hsim
  refine ⟨hstat, hart, ?_⟩
  intro id hid
  have hid2 : alookup id (runAux exec true v.order (initState [])).statuses =
      some Status.SUCCEEDED := hid
  show alookup id
      (runAux exec true v.order (initState (runGraph exec true v []).cache)).statuses =
    some Status.CACHED
  rw [hstat, alookup_map_value, hid2]
  rfl

/-- Witness for C7: the single-step demo graph validates, its step
succeeds on the first cached run, and on the second run over the first
cache it is CACHED with identical artifacts. -/
theorem cache_idempotence_witness :
    statusOf cache_demo_run2 "a" = some Status.CACHED
    ∧ cache_demo_run2.artifacts = cache_demo_run1.artifacts := by
  have h := cache_idempotence cache_demo_specs cache_demo_v cache_demo_exec rfl
  exact ⟨h.2.2 "a" rfl, h.2.1⟩

end PipelineEngine
